import Mathlib

/-!
Verification development for the ForkingDongles IRC client core.

The definitions below are a shallow embedding of the repository's Python
sources (forkingdongles/utils.py, forkingdongles/plugin.py,
forkingdongles/core.py).  Python dictionaries are modelled as
insertion-ordered association lists with key-unique update semantics,
Python strings as Lean Strings, and in-place object mutation as explicit
state passing.  Fallible operations (KeyError and the library's own
exception types) return Except.  Network and logging side effects
(WHOIS queries, log.err, reactor.callLater) are not modelled; only the
session / registry state they leave behind is.
-/

set_option maxRecDepth 8192
set_option linter.unusedVariables false

/-! ## Python primitive helpers -/

/-- Python str.lower, restricted to the ASCII casing the client uses
(written over the character list so that the kernel can evaluate it). -/
def pyLower (s : String) : String := String.mk (s.toList.map Char.toLower)

/-- Helper for pyPart: split a character list at the first occurrence of a
separator, dropping the separator.  When the separator is absent the second
component is empty, matching Python str.partition. -/
def pyPartAux (c : Char) : List Char → List Char × List Char
  | [] => ([], [])
  | x :: xs =>
    if x = c then ([], xs)
    else
      let p := pyPartAux c xs
      (x :: p.1, p.2)

/-- Python s.partition(c), returning the pieces before and after the first
occurrence of c (the separator itself is dropped). -/
def pyPart (s : String) (c : Char) : String × String :=
  let p := pyPartAux c s.toList
  (String.mk p.1, String.mk p.2)

/-- Helper for pySplitWs: accumulate maximal runs of non-space characters. -/
def splitWsAux : List Char → List Char → List (List Char)
  | [], acc => if acc.isEmpty then [] else [acc.reverse]
  | c :: rest, acc =>
    if c = ' ' then
      if acc.isEmpty then splitWsAux rest []
      else acc.reverse :: splitWsAux rest []
    else splitWsAux rest (c :: acc)

/-- Python str.split() with no argument: split on runs of whitespace,
producing no empty tokens.  The name-list replies only contain spaces. -/
def pySplitWs (s : String) : List String :=
  (splitWsAux s.toList []).map String.mk

/-- Python s.startswith('#'), as used to tell real channels from queries. -/
def startsHash (s : String) : Bool :=
  match s.toList with
  | [] => false
  | c :: _ => c = '#'

/-! ## Python dict model: insertion-ordered association lists -/

/-- Python d[k] lookup (as Option). -/
def dictGet [DecidableEq κ] : List (κ × α) → κ → Option α
  | [], _ => none
  | p :: rest, k => if p.1 = k then some p.2 else dictGet rest k

/-- Lookup with a default, modelling collections.defaultdict reads. -/
def dictGetD [DecidableEq κ] (d : List (κ × α)) (k : κ) (dflt : α) : α :=
  (dictGet d k).getD dflt

/-- Python d[k] = v: update in place if the key exists (keeping its
position, as CPython dicts do), otherwise append. -/
def dictSet [DecidableEq κ] : List (κ × α) → κ → α → List (κ × α)
  | [], k, v => [(k, v)]
  | p :: rest, k, v => if p.1 = k then (k, v) :: rest else p :: dictSet rest k v

/-- Python del d[k].  A Python dict holds each key at most once, so removing
every occurrence coincides with removing the one entry on all states the
client can build. -/
def dictDel [DecidableEq κ] (d : List (κ × α)) (k : κ) : List (κ × α) :=
  d.filter (fun p => decide (p.1 ≠ k))

/-- Python k in d. -/
def dictContains [DecidableEq κ] (d : List (κ × α)) (k : κ) : Bool :=
  (dictGet d k).isSome

/-- Python d.values(). -/
def dictValues (d : List (κ × α)) : List α := d.map (·.2)

theorem dictGet_dictSet_eq [DecidableEq κ] (d : List (κ × α)) (k : κ) (v : α) :
    dictGet (dictSet d k v) k = some v := by
  induction d with
  | nil => simp [dictSet, dictGet]
  | cons p rest ih =>
    by_cases h : p.1 = k
    · simp [dictSet, dictGet, h]
    · simp [dictSet, dictGet, h, ih]

theorem dictGetD_dictSet_eq [DecidableEq κ] (d : List (κ × α)) (k : κ) (v : α) (dflt : α) :
    dictGetD (dictSet d k v) k dflt = v := by
  simp [dictGetD, dictGet_dictSet_eq]

theorem dictGet_dictDel_eq [DecidableEq κ] (d : List (κ × α)) (k : κ) :
    dictGet (dictDel d k) k = none := by
  induction d with
  | nil => simp [dictDel, dictGet]
  | cons p rest ih =>
    by_cases h : p.1 = k
    · simpa [dictDel, dictGet, h] using ih
    · simpa [dictDel, dictGet, h] using ih

/-! ## Domain model: utils.py User and Channel -/

/-- utils.py User: identity parsed from a nick!user@host mask, a string of
single-character mode flags, and the is_self marker. -/
structure User where
  nick : String
  user : String
  host : String
  modes : List Char
  is_self : Bool
deriving DecidableEq

/-- utils.py User.__init__ with the default modes='' and is_self=False:
partition the mask at the first exclamation mark, then the remainder at the
first at-sign. -/
def User.ofMask (mask : String) : User :=
  let p1 := pyPart mask '!'
  let p2 := pyPart p1.2 '@'
  { nick := p1.1, user := p2.1, host := p2.2, modes := [], is_self := false }

/-- utils.py User.setMode.  The arg parameter exists in the source but is
never used for user modes. -/
def User.setMode (u : User) (added : Bool) (mode : Char) (arg : Option String) : User :=
  if added = true ∧ mode ∉ u.modes then { u with modes := u.modes ++ [mode] }
  else if added = false ∧ mode ∈ u.modes then
    { u with modes := u.modes.filter (fun x => x ≠ mode) }
  else u

def User.isIdentified (u : User) : Bool := decide ('r' ∈ u.modes)
def User.isSecure (u : User) : Bool := decide ('z' ∈ u.modes)
def User.isOper (u : User) : Bool := decide ('o' ∈ u.modes)

/-- utils.py Channel: membership and the five privilege lists all hold
lowercase nicks; modes is the channel-wide flag string; bans the mask list. -/
structure Channel where
  name : String
  users : List String
  modes : List Char
  qops : List String
  sops : List String
  aops : List String
  hops : List String
  vops : List String
  bans : List String
deriving DecidableEq

/-- utils.py Channel.__init__ with the default modes=''. -/
def Channel.init (name : String) : Channel :=
  { name := name, users := [], modes := [], qops := [], sops := [],
    aops := [], hops := [], vops := [], bans := [] }

/-- The source stores is_user at construction; it is determined by the name. -/
def Channel.isUser (c : Channel) : Bool := !(startsHash c.name)

/-- utils.py Channel.addUser (string path; User arguments contribute their
nick, which call sites pass here directly). -/
def Channel.addUser (c : Channel) (nick : String) : Channel :=
  if pyLower nick ∈ c.users then c else { c with users := c.users ++ [pyLower nick] }

/-- utils.py Channel.removeUser: every membership / privilege list drops the
lowercase nick (list.remove guarded by an `in` check, i.e. erase). -/
def Channel.removeUser (c : Channel) (nick : String) : Channel :=
  let k := pyLower nick
  { c with users := c.users.erase k, qops := c.qops.erase k, sops := c.sops.erase k,
           aops := c.aops.erase k, hops := c.hops.erase k, vops := c.vops.erase k }

/-- utils.py Channel.renameUser: re-key each list that holds the old nick. -/
def Channel.renameUser (c : Channel) (old new : String) : Channel :=
  let k := pyLower old
  let n := pyLower new
  let f : List String → List String := fun l => if k ∈ l then l.erase k ++ [n] else l
  { c with users := f c.users, qops := f c.qops, sops := f c.sops,
           aops := f c.aops, hops := f c.hops, vops := f c.vops }

/-- utils.py Channel.setMode's op_translations table: channel mode letter to
the first letter of the privilege list attribute. -/
def opTranslations : Char → Option Char
  | 'q' => some 'q'
  | 'a' => some 's'
  | 'o' => some 'a'
  | 'h' => some 'h'
  | 'v' => some 'v'
  | _ => none

/-- Read the privilege list selected by a translated letter (getattr). -/
def Channel.getOps (c : Channel) : Char → List String
  | 'q' => c.qops
  | 's' => c.sops
  | 'a' => c.aops
  | 'h' => c.hops
  | 'v' => c.vops
  | _ => []

/-- Write the privilege list selected by a translated letter (setattr). -/
def Channel.setOps (c : Channel) (t : Char) (l : List String) : Channel :=
  match t with
  | 'q' => { c with qops := l }
  | 's' => { c with sops := l }
  | 'a' => { c with aops := l }
  | 'h' => { c with hops := l }
  | 'v' => { c with vops := l }
  | _ => c

/-- utils.py Channel.setMode: with an argument, translated privilege letters
append to / remove from the matching privilege list and 'b' maintains the
ban list; without an argument the letter is tracked on the mode string.
str.replace removes every occurrence of the single-character flag. -/
def Channel.setMode (c : Channel) (added : Bool) (mode : Char) (arg : Option String) : Channel :=
  if added then
    match arg with
    | some a =>
      match opTranslations mode with
      | some t =>
        if pyLower a ∈ c.getOps t then c else c.setOps t (c.getOps t ++ [pyLower a])
      | none =>
        if mode = 'b' ∧ pyLower a ∉ c.bans then { c with bans := c.bans ++ [pyLower a] }
        else c
    | none =>
      if mode ∈ c.modes then c else { c with modes := c.modes ++ [mode] }
  else
    match arg with
    | some a =>
      match opTranslations mode with
      | some t =>
        if pyLower a ∈ c.getOps t then c.setOps t ((c.getOps t).erase (pyLower a)) else c
      | none =>
        if mode = 'b' ∧ pyLower a ∈ c.bans then { c with bans := c.bans.erase (pyLower a) }
        else c
    | none =>
      if mode ∈ c.modes then { c with modes := c.modes.filter (fun x => x ≠ mode) }
      else c

def Channel.isQOP (c : Channel) (nick : String) : Bool := decide (pyLower nick ∈ c.qops)
def Channel.isSOP (c : Channel) (nick : String) : Bool := decide (pyLower nick ∈ c.sops)
def Channel.isAOP (c : Channel) (nick : String) : Bool := decide (pyLower nick ∈ c.aops)
def Channel.isHOP (c : Channel) (nick : String) : Bool := decide (pyLower nick ∈ c.hops)
def Channel.isVOP (c : Channel) (nick : String) : Bool := decide (pyLower nick ∈ c.vops)

/-- utils.py defines isOP as an alias of isAOP. -/
def Channel.isOP : Channel → String → Bool := Channel.isAOP

/-- utils.py defines isHalfOP as an alias of isHOP. -/
def Channel.isHalfOP : Channel → String → Bool := Channel.isHOP

/-- utils.py defines isVoice as an alias of isVOP. -/
def Channel.isVoice : Channel → String → Bool := Channel.isVOP

example : (Channel.init "#t").addUser "Alice" =
    { Channel.init "#t" with users := ["alice"] } := by decide

example : ((Channel.init "#t").setMode true 'o' (some "Bob")).isOP "bob" = true := by decide

/-! ## Event engine: plugin.py EventManager

Event kinds (the Event enum members and plain strings both serve as dict
keys in the source) are modelled as String labels.  The two reserved
sentinel return values Event.STOP and Event.STOP_ALL are modelled by
RetVal.stop and RetVal.stopAll; RetVal.other tags any other return value a
handler may produce and RetVal.pynone is Python's None. -/

inductive RetVal where
  | pynone
  | stop
  | stopAll
  | other (tag : Nat)
deriving DecidableEq

/-- What a handler body does when invoked: return a value, raise the
recoverable skip condition (CommandNeedsArgsError for command handlers,
EventRejectedMessage for event callbacks), or raise any other exception. -/
inductive HandlerBehavior where
  | ret (v : RetVal)
  | raiseSkip
  | raiseOther
deriving DecidableEq

/-- An event callback as the engine observes it: invocability, positional
parameter count and variable-tail flag (inspect.getargspec), the event
kinds its decorator subscribed (the events attribute), and its body. -/
structure Callback where
  isCallable : Bool
  arity : Nat
  varargs : Bool
  events : List String
  behavior : HandlerBehavior
deriving DecidableEq

/-- plugin.py EventManager: declared kinds with their arity, and per kind an
insertion-ordered dict of callback id to callback. -/
structure EventManager where
  events : List (String × Nat)
  callbacks : List (String × List (Nat × Callback))
deriving DecidableEq

/-- Largest element of a list of naturals (0 when empty). -/
def listMax (l : List Nat) : Nat := l.foldr (fun a b => max a b) 0

/-- A callback id unused among the given ids.  The source draws random
6-character ids and retries on collision; its only contract, a fresh id
scoped to the event kind, is realised here deterministically. -/
def freshId (used : List Nat) : Nat := listMax used + 1

theorem le_listMax (x : Nat) (l : List Nat) (hx : x ∈ l) : x ≤ listMax l := by
  induction l with
  | nil => cases hx
  | cons a t ih =>
    rcases List.mem_cons.mp hx with h | h
    · subst h
      exact le_max_left _ _
    · exact (ih h).trans (le_max_right _ _)

theorem freshId_not_mem (used : List Nat) : freshId used ∉ used := by
  intro h
  have h2 := le_listMax _ _ h
  simp only [freshId] at h2
  omega

/-- plugin.py EventManager._add_callback: allocate a collision-free id
scoped to the kind and store the callback under it (defaultdict read). -/
def EventManager.add_callback (em : EventManager) (name : String) (cb : Callback) :
    Nat × EventManager :=
  let lst := dictGetD em.callbacks name []
  let cid := freshId (lst.map (·.1))
  (cid, { em with callbacks := dictSet em.callbacks name (lst ++ [(cid, cb)]) })

/-- plugin.py EventManager.register: duplicate declaration fails, otherwise
the arity is recorded and an empty callback dict ensured. -/
def EventManager.register (em : EventManager) (name : String) (arglen : Nat) :
    Except String EventManager :=
  if (dictGet em.events name).isSome then .error "EventAlreadyExistsError"
  else
    let em1 : EventManager := { em with events := dictSet em.events name arglen }
    if (dictGet em1.callbacks name).isSome then .ok em1
    else .ok { em1 with callbacks := dictSet em1.callbacks name [] }

/-- plugin.py EventManager.unregister. -/
def EventManager.unregister (em : EventManager) (name : String) :
    Except String EventManager :=
  if (dictGet em.events name).isSome then
    .ok { em with events := dictDel em.events name, callbacks := dictDel em.callbacks name }
  else .error "EventDoesNotExistError"

/-- plugin.py EventManager.register_callback: a non-callable fails; a kind
that was never declared skips every check and stores immediately; a declared
kind checks the parameter count against the declared arity unless the
callback takes a variable tail. -/
def EventManager.register_callback (em : EventManager) (name : String) (cb : Callback) :
    Except String (Nat × EventManager) :=
  if cb.isCallable = false then .error "EventCallbackError"
  else
    match dictGet em.events name with
    | none => .ok (em.add_callback name cb)
    | some narglen =>
      if cb.arity ≠ narglen ∧ cb.varargs = false then .error "EventCallbackError"
      else .ok (em.add_callback name cb)

/-- plugin.py EventManager.unregister_callback: idempotent no-op when the
kind or the id is absent. -/
def EventManager.unregister_callback (em : EventManager) (name : String) (cid : Nat) :
    EventManager :=
  match dictGet em.callbacks name with
  | none => em
  | some lst =>
    if (dictGet lst cid).isSome then
      { em with callbacks := dictSet em.callbacks name (dictDel lst cid) }
    else em

/-- The firing loop of plugin.py EventManager.fire.  The returned Nat list
is the trace of callback ids actually invoked, in order; the RetVal is the
loop's result variable.  A callback returning STOP or STOP_ALL ends the
loop; a raising callback (either the recoverable reject or a logged
failure) leaves the result variable unchanged and the loop continues. -/
def fireLoop : List (Nat × Callback) → RetVal → List Nat × RetVal
  | [], result => ([], result)
  | (cid, cb) :: rest, result =>
    match cb.behavior with
    | .ret v =>
      if v = .stop ∨ v = .stopAll then ([cid], v)
      else
        let r := fireLoop rest v
        (cid :: r.1, r.2)
    | .raiseSkip =>
      let r := fireLoop rest result
      (cid :: r.1, r.2)
    | .raiseOther =>
      let r := fireLoop rest result
      (cid :: r.1, r.2)

/-- plugin.py EventManager.fire: firing an undeclared kind raises
EventDoesNotExistError; otherwise the registered callbacks run in
registration order with early-stop semantics. -/
def EventManager.fire (em : EventManager) (name : String) :
    Except String (List Nat × RetVal) :=
  if (dictGet em.events name).isSome then
    .ok (fireLoop (dictGetD em.callbacks name []) .pynone)
  else .error "EventDoesNotExistError"

/-! ## Plugin engine: plugin.py PluginManager -/

/-- A command or regex handler method of a plugin instance: the commands
attribute holds its literal tokens, the regex attribute its pattern
(mutually exclusive in practice, both checked by the router), and tag
identifies the handler in invocation traces. -/
structure Command where
  tag : Nat
  commands : Option (List String)
  regex : Option String
  behavior : HandlerBehavior
deriving DecidableEq

/-- The handler object a plugin's setup entry point returns, as introspected
by _get_plugin_commands / _get_plugin_callbacks, plus whether its optional
close hook raises. -/
structure PluginInstance where
  commands : List Command
  callbacks : List Callback
  closeRaises : Bool
deriving DecidableEq

/-- plugin.py's per-plugin registration record (the dict stored in
PluginManager.plugins). -/
structure PluginRecord where
  pname : String
  moduleTag : Nat
  inst : PluginInstance
  commands : List Command
  callbacks : List Callback
  callback_ids : List (String × List Nat)
  blacklist : List Channel
deriving DecidableEq

/-- The bot state the plugin engine touches: the event manager, the plugin
registry dict, and the reload counter on the session. -/
structure BotState where
  em : EventManager
  plugins : List (String × PluginRecord)
  reloads : Nat
deriving DecidableEq

/-- Is this unit's blacklist suppressing the given channel? (the membership
test on plugin['blacklist'] in itercommands). -/
def blacklistedFor (pr : PluginRecord) (channel : Option Channel) : Bool :=
  match channel with
  | some c => decide (c ∈ pr.blacklist)
  | none => false

/-- plugin.py PluginManager.itercommands: walk the plugin dict in its
insertion order, skip a unit whose blacklist holds the channel, and yield
every handler of the remaining units. -/
def PluginManager.itercommands (plugins : List (String × PluginRecord))
    (channel : Option Channel) : List Command :=
  match plugins with
  | [] => []
  | p :: rest =>
    if blacklistedFor p.2 channel then PluginManager.itercommands rest channel
    else p.2.commands ++ PluginManager.itercommands rest channel

/-- Naive substring prefix test over character lists. -/
def listIsPre : List Char → List Char → Bool
  | [], _ => true
  | _ :: _, [] => false
  | a :: as, b :: bs => a = b && listIsPre as bs

/-- Naive substring search over character lists. -/
def subSearch (needle : List Char) : List Char → Bool
  | [] => needle.isEmpty
  | c :: rest => listIsPre needle (c :: rest) || subSearch needle rest

/-- Models re.search(pattern, message) for metacharacter-free patterns:
substring containment.  No claim depends on richer regex semantics. -/
def reSearch (pat msg : String) : Bool := subSearch pat.toList msg.toList

/-- Does the leading token select this handler (hasattr commands plus
membership of the token)? -/
def cmdMatches (c : Command) (cmd : String) : Bool :=
  match c.commands with
  | some toks => decide (cmd ∈ toks)
  | none => false

/-- Does the pattern select this handler (hasattr regex plus re.search)? -/
def regexMatches (c : Command) (message : String) : Bool :=
  match c.regex with
  | some pat => reSearch pat message
  | none => false

/-- The routing loop of plugin.py PluginManager.fire_command over the
handlers yielded by itercommands.  The Nat list traces invoked handler
tags in order.  Only STOP_ALL breaks the routing pass; a raising handler
(CommandNeedsArgsError in the command branch, anything logged in either
branch) leaves the result variable unchanged and the loop continues. -/
def fireCommandLoop (cmd message : String) : List Command → RetVal → List Nat × RetVal
  | [], result => ([], result)
  | c :: rest, result =>
    if cmdMatches c cmd then
      match c.behavior with
      | .ret v =>
        if v = .stopAll then ([c.tag], v)
        else
          let r := fireCommandLoop cmd message rest v
          (c.tag :: r.1, r.2)
      | .raiseSkip =>
        let r := fireCommandLoop cmd message rest result
        (c.tag :: r.1, r.2)
      | .raiseOther =>
        let r := fireCommandLoop cmd message rest result
        (c.tag :: r.1, r.2)
    else if regexMatches c message then
      match c.behavior with
      | .ret v =>
        if v = .stopAll then ([c.tag], v)
        else
          let r := fireCommandLoop cmd message rest v
          (c.tag :: r.1, r.2)
      | .raiseSkip =>
        let r := fireCommandLoop cmd message rest result
        (c.tag :: r.1, r.2)
      | .raiseOther =>
        let r := fireCommandLoop cmd message rest result
        (c.tag :: r.1, r.2)
    else fireCommandLoop cmd message rest result

/-- plugin.py PluginManager.fire_command: partition the message at the first
space into the leading token and the remainder, then route through the
handlers of the non-blacklisted units. -/
def PluginManager.fire_command (plugins : List (String × PluginRecord)) (user : User)
    (channel : Channel) (message : String) : List Nat × RetVal :=
  let p := pyPart message ' '
  fireCommandLoop p.1 message (PluginManager.itercommands plugins (some channel)) .pynone

/-- plugin.py PluginManager.blacklist: extend the unit's excluded-channel
list, or report False for an unknown identifier. -/
def PluginManager.blacklistAdd (st : BotState) (pname : String) (channels : List Channel) :
    BotState × Bool :=
  match dictGet st.plugins pname with
  | none => (st, false)
  | some pr =>
    ({ st with plugins :=
        dictSet st.plugins pname { pr with blacklist := pr.blacklist ++ channels } }, true)

/-! ### plugin.py load / unload

The import machinery (_load_module) and entry-point call (_load_plugin)
perform I/O and reflection; a LoadSpec records their outcome for one
identifier: whether the (re-)import succeeds, and the instance the setup
entry point returns (none models an import error at that stage).  State
effects on the Event Registry and the plugin dict are embedded exactly. -/

/-- The outcome oracle for loading one plugin identifier. -/
structure LoadSpec where
  pname : String
  newModuleTag : Nat
  importOk : Bool
  setupResult : Option PluginInstance
deriving DecidableEq

/-- Inner loop of _register_plugin_callbacks for one callback: register it
under each of its subscribed kinds.  A failing registration propagates
(third component false) leaving the earlier registrations in place. -/
def regCbEvents : EventManager → List (String × List Nat) → Callback → List String →
    EventManager × List (String × List Nat) × Bool
  | em, ids, _, [] => (em, ids, true)
  | em, ids, cb, n :: rest =>
    match em.register_callback n cb with
    | .error _ => (em, ids, false)
    | .ok r => regCbEvents r.2 (dictSet ids n (dictGetD ids n [] ++ [r.1])) cb rest

/-- Outer loop of _register_plugin_callbacks over a unit's callbacks. -/
def regCbs : EventManager → List (String × List Nat) → List Callback →
    EventManager × Option (List (String × List Nat))
  | em, ids, [] => (em, some ids)
  | em, ids, cb :: rest =>
    let r := regCbEvents em ids cb cb.events
    if r.2.2 then regCbs r.1 r.2.1 rest else (r.1, none)

/-- plugin.py PluginManager._register_plugin_callbacks: build the per-kind
callback-id dict; on the first registration failure the exception escapes
(returning none) with every already-made registration left in the event
manager. -/
def registerPluginCallbacks (em : EventManager) (cbs : List Callback) :
    EventManager × Option (List (String × List Nat)) :=
  regCbs em [] cbs

/-- One per-kind pass of _unregister_plugin_callbacks, preserving the
source's CPython semantics exactly: the for statement walks the id list by
index while list.remove shrinks it, so after visiting the element at index
i the element that slid into index i is skipped.  Fuel bounds the
structural recursion; list length plus one always suffices. -/
def unregLoopFuel (nm : String) : Nat → EventManager → List Nat → Nat → EventManager
  | 0, em, _, _ => em
  | fuel + 1, em, lst, i =>
    if h : i < lst.length then
      let cid := lst.get ⟨i, h⟩
      unregLoopFuel nm fuel (em.unregister_callback nm cid) (lst.erase cid) (i + 1)
    else em

/-- The per-kind removal loop at its actual starting fuel. -/
def unregLoop (nm : String) (em : EventManager) (lst : List Nat) : EventManager :=
  unregLoopFuel nm (lst.length + 1) em lst 0

/-- plugin.py PluginManager._unregister_plugin_callbacks: walk the record's
callback_ids dict and run the (element-skipping) removal loop per kind. -/
def unregisterPluginCallbacks (em : EventManager) (ids : List (String × List Nat)) :
    EventManager :=
  ids.foldl (fun em p => unregLoop p.1 em p.2) em

/-- plugin.py PluginManager.unload for one identifier: a missing identifier
fails; otherwise callbacks are unregistered (exceptions swallowed), the
optional close hook runs (its failure is logged and recorded but does not
block removal), and the record is deleted.  The Bool reports failure. -/
def PluginManager.unloadOne (st : BotState) (pname : String) : BotState × Bool :=
  match dictGet st.plugins pname with
  | none => (st, true)
  | some pr =>
    let em := unregisterPluginCallbacks st.em pr.callback_ids
    ({ st with em := em, plugins := dictDel st.plugins pname }, pr.inst.closeRaises)

/-- plugin.py PluginManager.unload over a list of identifiers. -/
def PluginManager.unload (st : BotState) (pnames : List String) :
    BotState × List String :=
  pnames.foldl
    (fun acc pname =>
      let r := PluginManager.unloadOne acc.1 pname
      (r.1, if r.2 then acc.2 ++ [pname] else acc.2))
    (st, [])

/-- The body of plugin.py PluginManager.load, one iteration per LoadSpec.
The loop threads the bot state, the failed list, and the binding of the
local variable callback_ids left by an earlier iteration: when
_register_plugin_callbacks raises, the missing continue lets control fall
through to the record assignment, which reads that stale binding — or
raises NameError (modelled as the Except error, aborting the whole call)
when no earlier iteration ever bound it. -/
def loadLoop : BotState → List String → Option (List (String × List Nat)) →
    List LoadSpec → BotState × Except String (List String)
  | st, failed, _, [] => (st, .ok failed)
  | st, failed, lastIds, spec :: rest =>
    let isReload := dictContains st.plugins spec.pname
    -- on reload the old instance's close hook runs first, failures swallowed
    if spec.importOk = false then
      loadLoop st (failed ++ [spec.pname]) lastIds rest
    else
      match spec.setupResult with
      | none => loadLoop st (failed ++ [spec.pname]) lastIds rest
      | some inst =>
        let r := registerPluginCallbacks st.em inst.callbacks
        let st1 : BotState := { st with em := r.1 }
        let failed1 := if r.2.isNone then failed ++ [spec.pname] else failed
        let curIds : Option (List (String × List Nat)) :=
          match r.2 with
          | some ids => some ids
          | none => lastIds
        let st2 := if isReload then (PluginManager.unloadOne st1 spec.pname).1 else st1
        match curIds with
        | none => (st2, .error "NameError")
        | some ids =>
          let recNew : PluginRecord :=
            { pname := spec.pname, moduleTag := spec.newModuleTag, inst := inst,
              commands := inst.commands, callbacks := inst.callbacks,
              callback_ids := ids, blacklist := [] }
          let st3 : BotState := { st2 with plugins := dictSet st2.plugins spec.pname recNew }
          let st4 : BotState := if isReload then { st3 with reloads := st3.reloads + 1 } else st3
          loadLoop st4 failed1 curIds rest

/-- plugin.py PluginManager.load: per-identifier outcomes are independent
except for the leaked callback_ids local; the call returns the identifiers
that failed at any stage, unless the record-assignment NameError escapes. -/
def PluginManager.load (st : BotState) (specs : List LoadSpec) :
    BotState × Except String (List String) :=
  loadLoop st [] none specs

/-! ## Session: core.py ForkingDongles

The protocol state the claims concern: the nickname, the global user
registry keyed by lowercase nick, and the tracked channels keyed by
lowercase name.  Handlers that index a dict directly raise KeyError in
Python; those are embedded with Except. -/

structure Session where
  nickname : String
  users : List (String × User)
  channels : List (String × Channel)
deriving DecidableEq

/-- core.py ForkingDongles.addUser, string path (twisted hands the
callbacks plain nick / mask strings, and User(user) is constructed from
them): set is_self on the fresh object, insert it only when the lowercase
nick is new (a WHOIS query is also sent then — network I/O, not modelled),
and return the registered object. -/
def ForkingDongles.addUser (s : Session) (mask : String) : Session × User :=
  let u0 := User.ofMask mask
  let u : User := { u0 with is_self := decide (pyLower u0.nick = pyLower s.nickname) }
  let key := pyLower u.nick
  match dictGet s.users key with
  | some ex => (s, ex)
  | none => ({ s with users := dictSet s.users key u }, u)

/-- core.py ForkingDongles.removeUser on an already-constructed User: pop
the registry entry when present and hand back the stored object, otherwise
hand back the argument. -/
def ForkingDongles.removeUserU (s : Session) (u : User) : Session × User :=
  let key := pyLower u.nick
  match dictGet s.users key with
  | some ex => ({ s with users := dictDel s.users key }, ex)
  | none => (s, u)

/-- core.py ForkingDongles.removeUser, string path: construct User(user)
first, as the source does. -/
def ForkingDongles.removeUser (s : Session) (mask : String) : Session × User :=
  ForkingDongles.removeUserU s (User.ofMask mask)

/-- core.py ForkingDongles.renameUser: store the object under the new
lowercase key, delete the old lowercase key, then assign the new display
nick through a fresh lookup of the new key — which raises KeyError when the
delete just removed that very key (old and new nicks equal up to case). -/
def ForkingDongles.renameUser (s : Session) (u : User) (new : String) :
    Except String Session :=
  let s1 : Session := { s with users := dictSet s.users (pyLower new) u }
  let s2 : Session := { s1 with users := dictDel s1.users (pyLower u.nick) }
  match dictGet s2.users (pyLower new) with
  | some stored =>
    .ok { s2 with users := dictSet s2.users (pyLower new) { stored with nick := new } }
  | none => .error "KeyError"

/-- core.py ForkingDongles.userJoined: register the user, then add it to
the (already tracked, else KeyError) channel. -/
def ForkingDongles.userJoined (s : Session) (nick channel : String) :
    Except String Session :=
  let r := ForkingDongles.addUser s nick
  match dictGet r.1.channels (pyLower channel) with
  | none => .error "KeyError"
  | some c =>
    .ok { r.1 with channels := dictSet r.1.channels (pyLower channel) (c.addUser r.2.nick) }

/-- core.py ForkingDongles.userLeft: look the user up (KeyError if
unknown), remove it from the channel (KeyError if untracked), and purge it
from the registry only when no tracked channel still lists the lowercase
nick.  The membership generator on line 116 is consumed by the
`True not in` test, so it does run. -/
def ForkingDongles.userLeft (s : Session) (nick channel : String) :
    Except String Session :=
  let u0 := User.ofMask nick
  match dictGet s.users (pyLower u0.nick) with
  | none => .error "KeyError"
  | some u =>
    match dictGet s.channels (pyLower channel) with
    | none => .error "KeyError"
    | some c =>
      let s1 : Session :=
        { s with channels := dictSet s.channels (pyLower channel) (c.removeUser u.nick) }
      if (dictValues s1.channels).any (fun ch => decide (pyLower u.nick ∈ ch.users)) then
        .ok s1
      else .ok (ForkingDongles.removeUserU s1 u).1

/-- core.py ForkingDongles.userKicked: identical body to userLeft up to the
unused kicker and message parameters. -/
def ForkingDongles.userKicked (s : Session) (nick channel kicker msg : String) :
    Except String Session :=
  let u0 := User.ofMask nick
  match dictGet s.users (pyLower u0.nick) with
  | none => .error "KeyError"
  | some u =>
    match dictGet s.channels (pyLower channel) with
    | none => .error "KeyError"
    | some c =>
      let s1 : Session :=
        { s with channels := dictSet s.channels (pyLower channel) (c.removeUser u.nick) }
      if (dictValues s1.channels).any (fun ch => decide (pyLower u.nick ∈ ch.users)) then
        .ok s1
      else .ok (ForkingDongles.removeUserU s1 u).1

/-- core.py ForkingDongles.userQuit: removeUser runs; the map(...) built on
line 121 over channel.removeUser is a lazy Python 3 iterator that is never
consumed, so not one Channel.removeUser call executes and every channel's
membership and privilege lists keep the nick. -/
def ForkingDongles.userQuit (s : Session) (nick : String) : Session :=
  (ForkingDongles.removeUser s nick).1

/-- core.py ForkingDongles.userRenamed: look up the old lowercase nick
(KeyError if unknown) and re-key the registry via renameUser.  The
map(...) on line 126 over channel.renameUser is again a lazy iterator that
is never consumed, so no channel is re-keyed (were it consumed it would
even raise: the call passes one argument to a two-argument method). -/
def ForkingDongles.userRenamed (s : Session) (old new : String) :
    Except String Session :=
  match dictGet s.users (pyLower old) with
  | none => .error "KeyError"
  | some u => ForkingDongles.renameUser s u new

/-- core.py ForkingDongles.modeChanged.  The prefix argument of the real
handler only feeds logging and is dropped here.  The source indexes args[x]
for x below len(modes) and every caller passes lists of equal length, which
zip reproduces.  Unknown targets leave the state unchanged. -/
def ForkingDongles.modeChanged (s : Session) (channel : String) (added : Bool)
    (modes : List Char) (args : List (Option String)) : Session :=
  if startsHash channel = false then
    match dictGet s.users (pyLower channel) with
    | none => s
    | some u =>
      let u2 := (modes.zip args).foldl (fun acc p => acc.setMode added p.1 p.2) u
      { s with users := dictSet s.users (pyLower channel) u2 }
  else
    match dictGet s.channels (pyLower channel) with
    | none => s
    | some c =>
      let c2 := (modes.zip args).foldl (fun acc p => acc.setMode added p.1 p.2) c
      { s with channels := dictSet s.channels (pyLower channel) c2 }

/-- The fallback privilege-symbol table of irc_RPL_NAMREPLY, used when the
server advertised no PREFIX feature. -/
def fallbackTable : List (Char × Char) :=
  [('~', 'q'), ('&', 'a'), ('@', 'o'), ('%', 'h'), ('+', 'v')]

/-- The per-nick loop of irc_RPL_NAMREPLY: strip a known privilege symbol
(recording the translated mode letter and the bare nick as its argument),
register the user, and add it to the channel's membership (KeyError when
the channel is untracked). -/
def namreplyLoop (tbl : List (Char × Char)) (chKey : String) :
    Session → List Char → List (Option String) → List String →
    Except String (Session × List Char × List (Option String))
  | s, modes, args, [] => .ok (s, modes, args)
  | s, modes, args, nick :: rest =>
    let stripped : String × List Char × List (Option String) :=
      match nick.toList with
      | [] => (nick, modes, args)
      | c0 :: tail =>
        match dictGet tbl c0 with
        | some m => (String.mk tail, modes ++ [m], args ++ [some (String.mk tail)])
        | none => (nick, modes, args)
    let s1 := (ForkingDongles.addUser s stripped.1).1
    match dictGet s1.channels chKey with
    | none => .error "KeyError"
    | some c =>
      namreplyLoop tbl chKey
        { s1 with channels := dictSet s1.channels chKey (c.addUser stripped.1) }
        stripped.2.1 stripped.2.2 rest

/-- core.py ForkingDongles.irc_RPL_NAMREPLY after parameter extraction:
serverTable models the PREFIX feature advertised by the server (symbol to
mode letter); when absent the fixed fallback table applies.  After the
per-nick loop the collected modes are applied through modeChanged, the same
contract live mode changes use. -/
def ForkingDongles.namreply (s : Session) (channel nicks : String)
    (serverTable : Option (List (Char × Char))) : Except String Session :=
  let tbl := match serverTable with
             | none => fallbackTable
             | some t => t
  match namreplyLoop tbl (pyLower channel) s [] [] (pySplitWs nicks) with
  | .error e => .error e
  | .ok (s1, modes, args) => .ok (ForkingDongles.modeChanged s1 channel true modes args)

/-! ## Claim C1: quit handling -/

/-- A session tracking user alice, who is a member of tracked channel
#test: the state right before alice's QUIT arrives. -/
def c1State : Session :=
  { nickname := "dongle",
    users := [("alice", User.ofMask "alice")],
    channels := [("#test", (Channel.init "#test").addUser "alice")] }

/-- C1: the claim says a quitting user's nick is removed from every tracked
channel's membership and the user is purged only at zero memberships.  The
code does neither: evaluating userQuit on a session where alice is a member
of #test shows the registry entry purged unconditionally while #test's
membership still lists alice (the channel-removal map on core.py line 121
is a lazy iterator that is never consumed). -/
theorem quitDoesNotClearMembership :
    (ForkingDongles.userQuit c1State "alice").users = [] ∧
    (ForkingDongles.userQuit c1State "alice").channels.map (fun p => (p.1, p.2.users))
      = [("#test", ["alice"])] := by
  constructor
  · rfl
  · rfl

/-! ## Claim C2: rename handling -/

/-- A session tracking user alice, member of tracked channel #test: the
state right before a NICK change from alice. -/
def c2State : Session :=
  { nickname := "dongle",
    users := [("alice", User.ofMask "alice")],
    channels := [("#test", (Channel.init "#test").addUser "alice")] }

/-- C2: the claim says a rename re-keys the user in the registry and in
every channel's membership / privilege sets, and keeps the user tracked
even for a case-only rename.  Evaluating the code: renaming alice to bob
re-keys the registry but #test still lists alice (line 126's map is lazy
and never consumed), and the case-only rename alice to Alice raises
KeyError after the delete removed the just-written key, leaving the user
untracked. -/
theorem renameLeavesChannelsAndDropsCaseOnly :
    ForkingDongles.userRenamed c2State "alice" "bob" =
      .ok { nickname := "dongle",
            users := [("bob",
              { nick := "bob", user := "", host := "", modes := [], is_self := false })],
            channels := [("#test", (Channel.init "#test").addUser "alice")] } ∧
    ForkingDongles.userRenamed c2State "alice" "Alice" = .error "KeyError" := by
  constructor
  · rfl
  · rfl

/-! ## Claim C3: reload semantics -/

/-- An event callback subscribed to PRIVMSG with the declared arity,
distinguishable by its return tag. -/
def c3cb (n : Nat) : Callback :=
  { isCallable := true, arity := 3, varargs := false, events := ["PRIVMSG"],
    behavior := .ret (.other n) }

/-- The event manager before the reload: PRIVMSG declared, and the loaded
unit's two callbacks registered under ids 1 and 2. -/
def c3em0 : EventManager :=
  { events := [("PRIVMSG", 3)],
    callbacks := [("PRIVMSG", [(1, c3cb 1), (2, c3cb 2)])] }

/-- The registration record of the already-loaded plugin p: it holds the
two callback ids 1 and 2 under the PRIVMSG kind. -/
def c3oldRec : PluginRecord :=
  { pname := "p", moduleTag := 0,
    inst := { commands := [], callbacks := [c3cb 1, c3cb 2], closeRaises := false },
    commands := [], callbacks := [c3cb 1, c3cb 2],
    callback_ids := [("PRIVMSG", [1, 2])], blacklist := [] }

/-- The bot state before the reload of p. -/
def c3st0 : BotState := { em := c3em0, plugins := [("p", c3oldRec)], reloads := 0 }

/-- The reload outcome oracle: the import and the entry point succeed and
the new unit carries a single well-formed PRIVMSG callback, so this reload
succeeds (load reports no failed identifier). -/
def c3spec : LoadSpec :=
  { pname := "p", newModuleTag := 1, importOk := true,
    setupResult := some { commands := [], callbacks := [c3cb 3], closeRaises := false } }

/-- C3: the claim says a successful reload deregisters every callback id
the previous unit held, leaving only the new unit's ids.  Evaluating the
code on a reload whose previous unit held ids [1, 2] under PRIVMSG: the
reload succeeds (no failed identifiers), the new unit's id is 3, yet the
registry still holds the old id 2 next to it — _unregister_plugin_callbacks
removes entries from the very list it iterates, skipping every other id. -/
theorem reloadLeavesStaleCallback :
    (PluginManager.load c3st0 [c3spec]).2 = .ok [] ∧
    (dictGetD (PluginManager.load c3st0 [c3spec]).1.em.callbacks "PRIVMSG" []).map (·.1)
      = [2, 3] ∧
    ((dictGet (PluginManager.load c3st0 [c3spec]).1.plugins "p").map
      (fun pr => pr.callback_ids)) = some [("PRIVMSG", [3])] ∧
    2 ∈ dictGetD c3oldRec.callback_ids "PRIVMSG" [] := by
  refine ⟨rfl, rfl, rfl, ?_⟩
  decide

/-! ## Claim C9: name-list ingestion -/

/-- A freshly joined session tracking channel #test with no members yet,
right before the RPL_NAMREPLY for "@alice +bob carol" arrives. -/
def c9s0 : Session :=
  { nickname := "dongle", users := [], channels := [("#test", Channel.init "#test")] }

/-- C9: processing the name-list reply "@alice +bob carol" for tracked
channel #test with no server-advertised PREFIX table puts alice in the
operator set (the list isOP consults), bob in the voice set, carol in no
privilege set, and all three lowercase nicks in the membership. -/
theorem namreplyOperVoice :
    (ForkingDongles.namreply c9s0 "#test" "@alice +bob carol" none).toOption.map
      (fun s2 => (dictGet s2.channels "#test").map (fun c =>
        (c.isOP "alice", c.isVoice "bob",
         c.isQOP "carol", c.isSOP "carol", c.isAOP "carol", c.isHOP "carol", c.isVOP "carol",
         decide ("alice" ∈ c.users), decide ("bob" ∈ c.users), decide ("carol" ∈ c.users))))
      = some (some (true, true, false, false, false, false, false, true, true, true)) := by
  rfl

/-! ## Claim C8: setMode idempotence -/

/-- C8: mode / privilege mutation through setMode is idempotent for users
and channels alike — adding a user-mode flag already on the mode string, or
removing an absent one, is a no-op; likewise for a channel's flag string,
for a privilege entry already in (or absent from) the list selected by the
translation table, and for a ban mask already in (or absent from) the ban
list. -/
theorem setModeIdempotent :
    (∀ (u : User) (mode : Char) (arg : Option String),
        (mode ∈ u.modes → u.setMode true mode arg = u)
      ∧ (mode ∉ u.modes → u.setMode false mode arg = u))
  ∧ (∀ (c : Channel) (mode : Char),
        (mode ∈ c.modes → c.setMode true mode none = c)
      ∧ (mode ∉ c.modes → c.setMode false mode none = c))
  ∧ (∀ (c : Channel) (mode : Char) (a : String) (t : Char),
        opTranslations mode = some t →
        (pyLower a ∈ c.getOps t → c.setMode true mode (some a) = c)
      ∧ (pyLower a ∉ c.getOps t → c.setMode false mode (some a) = c))
  ∧ (∀ (c : Channel) (a : String),
        (pyLower a ∈ c.bans → c.setMode true 'b' (some a) = c)
      ∧ (pyLower a ∉ c.bans → c.setMode false 'b' (some a) = c)) := by
  refine ⟨?_, ?_, ?_, ?_⟩
  · intro u mode arg
    constructor
    · intro h
      simp [User.setMode, h]
    · intro h
      simp [User.setMode, h]
  · intro c mode
    constructor
    · intro h
      simp [Channel.setMode, h]
    · intro h
      simp [Channel.setMode, h]
  · intro c mode a t ht
    constructor
    · intro h
      simp [Channel.setMode, ht, h]
    · intro h
      simp [Channel.setMode, ht, h]
  · intro c a
    constructor
    · intro h
      simp [Channel.setMode, opTranslations, h]
    · intro h
      simp [Channel.setMode, opTranslations, h]

/-- A user with the oper flag set, for the C8 witness. -/
def c8u : User := { nick := "alice", user := "a", host := "h", modes := ['o'], is_self := false }

/-- A channel with alice as operator, for the C8 witness. -/
def c8c : Channel := { Channel.init "#test" with aops := ["alice"] }

/-- Witness for C8 at concrete inputs: re-adding the present oper flag,
removing an absent user flag, re-adding the present operator entry (with
different display casing), and removing an absent ban mask all leave the
state unchanged. -/
theorem setModeIdempotent_witness :
    c8u.setMode true 'o' none = c8u ∧
    c8u.setMode false 'z' none = c8u ∧
    c8c.setMode true 'o' (some "Alice") = c8c ∧
    c8c.setMode false 'b' (some "mask") = c8c :=
  ⟨(setModeIdempotent.1 c8u 'o' none).1 (by decide),
   (setModeIdempotent.1 c8u 'z' none).2 (by decide),
   (setModeIdempotent.2.2.1 c8c 'o' "Alice" 'a' (by decide)).1 (by decide),
   (setModeIdempotent.2.2.2 c8c "mask").2 (by decide)⟩

/-! ## Claim C10: callback registration for an undeclared kind -/

/-- C10: for an invocable callback and a kind that was never declared,
register_callback succeeds whatever the callback's parameter count or
variable-tail flag (no arity hypothesis appears below): it takes the
_add_callback path, returning an identifier fresh among the kind's ids and
appending the callback under that kind. -/
theorem registerCallbackNoArityCheck (em : EventManager) (name : String) (cb : Callback)
    (hcall : cb.isCallable = true)
    (hnew : dictGet em.events name = none) :
    em.register_callback name cb = .ok (em.add_callback name cb) ∧
    (em.add_callback name cb).1 ∉ (dictGetD em.callbacks name []).map (·.1) ∧
    dictGetD (em.add_callback name cb).2.callbacks name []
      = dictGetD em.callbacks name [] ++ [((em.add_callback name cb).1, cb)] := by
  refine ⟨?_, ?_, ?_⟩
  · simp [EventManager.register_callback, hcall, hnew]
  · exact freshId_not_mem _
  · simp [EventManager.add_callback, dictGetD_dictSet_eq]

/-- An event manager that declared only PRIVMSG with arity 3, for the C10
witness. -/
def c10em : EventManager := { events := [("PRIVMSG", 3)], callbacks := [("PRIVMSG", [])] }

/-- A callback whose parameter count (99, no variable tail) matches no
declaration at all, for the C10 witness. -/
def c10cb : Callback :=
  { isCallable := true, arity := 99, varargs := false, events := ["NEWKIND"],
    behavior := .ret .pynone }

/-- Witness for C10: registering the arity-99 callback under the undeclared
kind NEWKIND succeeds with a fresh id and stores it under that kind. -/
theorem registerCallbackNoArityCheck_witness :
    c10em.register_callback "NEWKIND" c10cb = .ok (c10em.add_callback "NEWKIND" c10cb) ∧
    (c10em.add_callback "NEWKIND" c10cb).1 ∉ (dictGetD c10em.callbacks "NEWKIND" []).map (·.1) ∧
    dictGetD (c10em.add_callback "NEWKIND" c10cb).2.callbacks "NEWKIND" []
      = dictGetD c10em.callbacks "NEWKIND" []
        ++ [((c10em.add_callback "NEWKIND" c10cb).1, c10cb)] :=
  registerCallbackNoArityCheck c10em "NEWKIND" c10cb (by decide) (by decide)

/-! ## Claim C6: fire ordering and early stop -/

/-- The firing loop run on a prefix of callbacks none of which returns a
stop sentinel, followed by one that does: exactly the prefix and the
stopping callback are invoked, in list order, and the sentinel is the
loop's result. -/
theorem fireLoop_stop (cid : Nat) (cb : Callback) (v : RetVal)
    (hb : cb.behavior = .ret v) (hv : v = .stop ∨ v = .stopAll) :
    ∀ (pre rest : List (Nat × Callback)) (r0 : RetVal),
      (∀ p ∈ pre, p.2.behavior ≠ .ret .stop ∧ p.2.behavior ≠ .ret .stopAll) →
      fireLoop (pre ++ (cid, cb) :: rest) r0 = (pre.map (·.1) ++ [cid], v) := by
  intro pre
  induction pre with
  | nil =>
    intro rest r0 _
    rcases hv with h | h <;> simp [fireLoop, hb, h]
  | cons p pre ih =>
    intro rest r0 hpre
    rcases p with ⟨pid, pc⟩
    have hhead := hpre (pid, pc) (List.mem_cons_self _ _)
    have htail : ∀ q ∈ pre, q.2.behavior ≠ .ret .stop ∧ q.2.behavior ≠ .ret .stopAll :=
      fun q hq => hpre q (List.mem_cons_of_mem _ hq)
    cases hpc : pc.behavior with
    | ret w =>
      have hw : ¬ (w = .stop ∨ w = .stopAll) := by
        rintro (h | h) <;> subst h <;> simp [hpc] at hhead
      simp [fireLoop, hpc, hw, ih rest w htail]
    | raiseSkip =>
      simp [fireLoop, hpc, ih rest r0 htail]
    | raiseOther =>
      simp [fireLoop, hpc, ih rest r0 htail]

/-- C6: for a registered event kind whose callback dict is a prefix of
non-stopping callbacks, then one whose body returns a stop sentinel, then
anything, fire invokes exactly the prefix (in registration order) and the
stopping callback, skips the rest, and returns that sentinel as its overall
result. -/
theorem fireStopsAtSentinel (em : EventManager) (name : String) (arglen : Nat)
    (pre rest : List (Nat × Callback)) (cid : Nat) (cb : Callback) (v : RetVal)
    (hev : dictGet em.events name = some arglen)
    (hcbs : dictGetD em.callbacks name [] = pre ++ (cid, cb) :: rest)
    (hb : cb.behavior = .ret v)
    (hv : v = .stop ∨ v = .stopAll)
    (hpre : ∀ p ∈ pre, p.2.behavior ≠ .ret .stop ∧ p.2.behavior ≠ .ret .stopAll) :
    EventManager.fire em name = .ok (pre.map (·.1) ++ [cid], v) := by
  unfold EventManager.fire
  rw [hev]
  simp only [Option.isSome_some, if_true]
  rw [hcbs, fireLoop_stop cid cb v hb hv pre rest .pynone hpre]

/-- First C6 witness callback: returns None. -/
def c6cbA : Callback :=
  { isCallable := true, arity := 3, varargs := false, events := ["PRIVMSG"],
    behavior := .ret .pynone }

/-- Second C6 witness callback: returns the stop-all sentinel. -/
def c6cbB : Callback :=
  { isCallable := true, arity := 3, varargs := false, events := ["PRIVMSG"],
    behavior := .ret .stopAll }

/-- Third C6 witness callback: would return None, but must never run. -/
def c6cbC : Callback :=
  { isCallable := true, arity := 3, varargs := false, events := ["PRIVMSG"],
    behavior := .ret .pynone }

/-- An event manager with three PRIVMSG callbacks registered in the order
1, 2, 3, the second of which returns the stop-all sentinel. -/
def c6em : EventManager :=
  { events := [("PRIVMSG", 3)],
    callbacks := [("PRIVMSG", [(1, c6cbA), (2, c6cbB), (3, c6cbC)])] }

/-- Witness for C6, the spec's own scenario: with three registered
callbacks whose second returns the stop-all sentinel, fire invokes only the
first two and returns that sentinel. -/
theorem fireStopsAtSentinel_witness :
    EventManager.fire c6em "PRIVMSG" = .ok ([1, 2], .stopAll) := by
  have h := fireStopsAtSentinel c6em "PRIVMSG" 3 [(1, c6cbA)] [(3, c6cbC)] 2 c6cbB .stopAll
    (by decide) (by decide) (by decide) (by simp) (by decide)
  simpa using h

/-! ## Routing lemmas shared by the fireCommand claims -/

/-- The trace of invoked handler tags is an order-preserving selection of
the handler list the router walks: invocation follows iteration order. -/
theorem fireCommandLoop_sublist (cmd message : String) :
    ∀ (cs : List Command) (r : RetVal),
      List.Sublist (fireCommandLoop cmd message cs r).1 (cs.map (·.tag)) := by
  intro cs
  induction cs with
  | nil =>
    intro r
    simp [fireCommandLoop]
  | cons c rest ih =>
    intro r
    by_cases h1 : cmdMatches c cmd
    · cases hb : c.behavior with
      | ret v =>
        by_cases hv : v = .stopAll
        · simp only [fireCommandLoop, h1, hb, hv, if_true, List.map_cons]
          exact List.Sublist.cons₂ _ (List.nil_sublist _)
        · simp only [fireCommandLoop, h1, hb, hv, if_true, if_false, List.map_cons]
          exact List.Sublist.cons₂ _ (ih v)
      | raiseSkip =>
        simp only [fireCommandLoop, h1, hb, if_true, List.map_cons]
        exact List.Sublist.cons₂ _ (ih r)
      | raiseOther =>
        simp only [fireCommandLoop, h1, hb, if_true, List.map_cons]
        exact List.Sublist.cons₂ _ (ih r)
    · by_cases h2 : regexMatches c message
      · cases hb : c.behavior with
        | ret v =>
          by_cases hv : v = .stopAll
          · simp only [fireCommandLoop, h1, h2, hb, hv, if_true, if_false, List.map_cons]
            exact List.Sublist.cons₂ _ (List.nil_sublist _)
          · simp only [fireCommandLoop, h1, h2, hb, hv, if_true, if_false, List.map_cons]
            exact List.Sublist.cons₂ _ (ih v)
        | raiseSkip =>
          simp only [fireCommandLoop, h1, h2, hb, if_true, if_false, List.map_cons]
          exact List.Sublist.cons₂ _ (ih r)
        | raiseOther =>
          simp only [fireCommandLoop, h1, h2, hb, if_true, if_false, List.map_cons]
          exact List.Sublist.cons₂ _ (ih r)
      · simp only [fireCommandLoop, h1, h2, if_false, List.map_cons]
        exact List.Sublist.cons _ (ih r)

/-- Every handler itercommands yields comes from a unit of the registry
that was not skipped for the channel. -/
theorem itercommands_mem (plugins : List (String × PluginRecord)) (channel : Option Channel)
    (c : Command) (hc : c ∈ PluginManager.itercommands plugins channel) :
    ∃ p, p ∈ plugins ∧ blacklistedFor p.2 channel = false ∧ c ∈ p.2.commands := by
  induction plugins with
  | nil => simp [PluginManager.itercommands] at hc
  | cons p rest ih =>
    by_cases hbl : blacklistedFor p.2 channel
    · rw [PluginManager.itercommands, if_pos hbl] at hc
      obtain ⟨q, hq, h⟩ := ih hc
      exact ⟨q, List.mem_cons_of_mem _ hq, h⟩
    · rw [PluginManager.itercommands, if_neg hbl] at hc
      rcases List.mem_append.mp hc with h | h
      · exact ⟨p, List.mem_cons_self _ _, by simpa using hbl, h⟩
      · obtain ⟨q, hq, h2⟩ := ih h
        exact ⟨q, List.mem_cons_of_mem _ hq, h2⟩

/-- A unit blacklisted for the channel contributes nothing: itercommands
over the registry equals itercommands over the registry with that
identifier's entries removed. -/
theorem itercommands_filter_blacklisted (plugins : List (String × PluginRecord))
    (channel : Channel) (pname : String)
    (hbl : ∀ pr, (pname, pr) ∈ plugins → channel ∈ pr.blacklist) :
    PluginManager.itercommands plugins (some channel)
      = PluginManager.itercommands (plugins.filter (fun p => decide (p.1 ≠ pname)))
          (some channel) := by
  induction plugins with
  | nil => rfl
  | cons p rest ih =>
    rcases p with ⟨k, pr⟩
    have hrest : ∀ q, (pname, q) ∈ rest → channel ∈ q.blacklist :=
      fun q hq => hbl q (List.mem_cons_of_mem _ hq)
    by_cases hk : k = pname
    · have hmem : (pname, pr) ∈ (k, pr) :: rest := by
        rw [← hk]
        exact List.mem_cons_self _ _
      have hblp : channel ∈ pr.blacklist := hbl pr hmem
      have hskip : blacklistedFor pr (some channel) = true := by
        simp [blacklistedFor, hblp]
      have hdrop : ¬ (decide ((k, pr).1 ≠ pname) = true) := by simp [hk]
      rw [PluginManager.itercommands, if_pos hskip, List.filter_cons, if_neg hdrop]
      exact ih hrest
    · have hkeep : (decide ((k, pr).1 ≠ pname)) = true := by simp [hk]
      rw [List.filter_cons, if_pos hkeep]
      by_cases hb2 : blacklistedFor pr (some channel)
      · rw [PluginManager.itercommands, if_pos hb2,
            PluginManager.itercommands, if_pos hb2]
        exact ih hrest
      · rw [PluginManager.itercommands, if_neg hb2,
            PluginManager.itercommands, if_neg hb2]
        rw [ih hrest]

/-! ## Claim C4: blacklists suppress a unit's handlers -/

/-- C4: when every registry entry for an identifier is blacklisted for the
invoking channel, fireCommand behaves exactly as if that unit were absent,
and (given that the unit's handler tags collide with no other unit's) none
of the unit's handlers — command or regex, matching or not — appears in the
invocation trace. -/
theorem blacklistSkipsUnit (plugins : List (String × PluginRecord)) (user : User)
    (channel : Channel) (message : String) (pname : String)
    (hbl : ∀ pr, (pname, pr) ∈ plugins → channel ∈ pr.blacklist) :
    PluginManager.fire_command plugins user channel message
      = PluginManager.fire_command (plugins.filter (fun p => decide (p.1 ≠ pname)))
          user channel message ∧
    ∀ pr c, (pname, pr) ∈ plugins → c ∈ pr.commands →
      (∀ q ∈ plugins, q.1 ≠ pname → ∀ d ∈ q.2.commands, d.tag ≠ c.tag) →
      c.tag ∉ (PluginManager.fire_command plugins user channel message).1 := by
  have hiter := itercommands_filter_blacklisted plugins channel pname hbl
  constructor
  · unfold PluginManager.fire_command
    rw [hiter]
  · intro pr c hpr hc htags hmem
    have hsub : List.Sublist (PluginManager.fire_command plugins user channel message).1
        ((PluginManager.itercommands plugins (some channel)).map (·.tag)) := by
      unfold PluginManager.fire_command
      exact fireCommandLoop_sublist _ _ _ _
    have hmem2 : c.tag ∈ (PluginManager.itercommands plugins (some channel)).map (·.tag) :=
      hsub.subset hmem
    obtain ⟨d, hd, hdtag⟩ := List.mem_map.mp hmem2
    obtain ⟨q, hq, hnb, hdq⟩ := itercommands_mem plugins (some channel) d hd
    by_cases hqn : q.1 = pname
    · have hq2 : (pname, q.2) ∈ plugins := by
        rw [← hqn]
        exact hq
      have hblc : channel ∈ q.2.blacklist := hbl q.2 hq2
      simp [blacklistedFor, hblc] at hnb
    · exact htags q hq hqn d hdq hdtag

/-- The invoking channel of the C4 witness. -/
def c4chan : Channel := Channel.init "#test"

/-- A command handler of the blacklisted unit whose token matches the
witness message. -/
def c4cmd : Command := { tag := 7, commands := some ["hi"], regex := none,
                         behavior := .ret .pynone }

/-- A regex handler of the blacklisted unit whose pattern matches the
witness message. -/
def c4rgx : Command := { tag := 8, commands := none, regex := some "hi",
                         behavior := .ret .pynone }

/-- The registration record of the unit blacklisted for #test. -/
def c4rec : PluginRecord :=
  { pname := "x", moduleTag := 0,
    inst := { commands := [c4cmd, c4rgx], callbacks := [], closeRaises := false },
    commands := [c4cmd, c4rgx], callbacks := [], callback_ids := [],
    blacklist := [c4chan] }

/-- A registry holding only the blacklisted unit. -/
def c4plugins : List (String × PluginRecord) := [("x", c4rec)]

/-- The invoking user of the C4 witness. -/
def c4user : User := User.ofMask "alice"

/-- Witness for C4: for the message "hi there" — whose leading token hi is
in the unit's command token set and which its regex also matches — routing
equals routing without the unit, and neither handler tag is invoked. -/
theorem blacklistSkipsUnit_witness :
    PluginManager.fire_command c4plugins c4user c4chan "hi there"
      = PluginManager.fire_command (c4plugins.filter (fun p => decide (p.1 ≠ "x")))
          c4user c4chan "hi there" ∧
    c4cmd.tag ∉ (PluginManager.fire_command c4plugins c4user c4chan "hi there").1 ∧
    c4rgx.tag ∉ (PluginManager.fire_command c4plugins c4user c4chan "hi there").1 := by
  have hbl : ∀ pr, ("x", pr) ∈ c4plugins → c4chan ∈ pr.blacklist := by
    intro pr h
    have h2 : pr = c4rec := by simpa [c4plugins] using h
    subst h2
    decide
  have h := blacklistSkipsUnit c4plugins c4user c4chan "hi there" "x" hbl
  refine ⟨h.1, ?_, ?_⟩
  · refine h.2 c4rec c4cmd (by simp [c4plugins]) (by simp [c4rec]) ?_
    intro q hq hqn d hd
    exfalso
    apply hqn
    have : q = ("x", c4rec) := by simpa [c4plugins] using hq
    rw [this]
  · refine h.2 c4rec c4rgx (by simp [c4plugins]) (by simp [c4rec]) ?_
    intro q hq hqn d hd
    exfalso
    apply hqn
    have : q = ("x", c4rec) := by simpa [c4plugins] using hq
    rw [this]

/-! ## Claim C5: iteration order of fireCommand -/

/-- Strict character-list order, kernel-evaluable, used only by the
spec-modelled sorted iteration below. -/
def charsLt : List Char → List Char → Bool
  | [], [] => false
  | [], _ :: _ => true
  | _ :: _, [] => false
  | a :: as, b :: bs => if a = b then charsLt as bs else decide (a.val < b.val)

/-- Strict identifier order for the spec-modelled sorted iteration. -/
def strKeyLt (a b : String) : Bool := charsLt a.toList b.toList

/-- Insertion step of the identifier sort. -/
def insertByKey (p : String × PluginRecord) :
    List (String × PluginRecord) → List (String × PluginRecord)
  | [] => [p]
  | q :: qs => if strKeyLt p.1 q.1 then p :: q :: qs else q :: insertByKey p qs

/-- Sort registry entries by plugin identifier. -/
def sortByKey (l : List (String × PluginRecord)) : List (String × PluginRecord) :=
  l.foldr insertByKey []

/-- Modelled from the spec: the iteration order the claim asserts —
itercommands walked over the registry sorted by plugin identifier. -/
def itercommandsSortedSpec (plugins : List (String × PluginRecord))
    (channel : Option Channel) : List Command :=
  PluginManager.itercommands (sortByKey plugins) channel

/-- Invoking user for the C5 counterexample. -/
def c5user : User := User.ofMask "u"

/-- Invoking channel for the C5 counterexample. -/
def c5chan : Channel := Channel.init "#c"

/-- Handler of unit a (tag 1), token hi. -/
def c5cmdA : Command := { tag := 1, commands := some ["hi"], regex := none,
                          behavior := .ret .pynone }

/-- Handler of unit b (tag 2), token hi. -/
def c5cmdB : Command := { tag := 2, commands := some ["hi"], regex := none,
                          behavior := .ret .pynone }

/-- Record of unit a. -/
def c5recA : PluginRecord :=
  { pname := "a", moduleTag := 0,
    inst := { commands := [c5cmdA], callbacks := [], closeRaises := false },
    commands := [c5cmdA], callbacks := [], callback_ids := [], blacklist := [] }

/-- Record of unit b. -/
def c5recB : PluginRecord :=
  { pname := "b", moduleTag := 0,
    inst := { commands := [c5cmdB], callbacks := [], closeRaises := false },
    commands := [c5cmdB], callbacks := [], callback_ids := [], blacklist := [] }

/-- A registry whose insertion order (b first, then a) disagrees with the
sorted identifier order. -/
def c5plugins : List (String × PluginRecord) := [("b", c5recB), ("a", c5recA)]

/-- Counterexample for C5: the claim says fireCommand iterates units sorted
by plugin identifier.  With units loaded in the order b, a and both
handlers matching, the code invokes b's handler (tag 2) before a's (tag 1),
while the identifier-sorted order the claim asserts would yield a's first;
the handler streams differ outright. -/
theorem fireCommandOrderCounterexample :
    (PluginManager.fire_command c5plugins c5user c5chan "hi there").1 = [2, 1] ∧
    (itercommandsSortedSpec c5plugins (some c5chan)).map (·.tag) = [1, 2] ∧
    (PluginManager.itercommands c5plugins (some c5chan)).map (·.tag)
      ≠ (itercommandsSortedSpec c5plugins (some c5chan)).map (·.tag) := by
  refine ⟨rfl, rfl, ?_⟩
  decide

/-- C5 (amended): fireCommand iterates the loaded units in the stable,
deterministic insertion order of the plugin registry — the order
itercommands yields — not in identifier-sorted order: every invocation
trace is an order-preserving selection of that registry-ordered handler
stream. -/
theorem fireCommandFollowsRegistryOrder (plugins : List (String × PluginRecord))
    (user : User) (channel : Channel) (message : String) :
    List.Sublist (PluginManager.fire_command plugins user channel message).1
      ((PluginManager.itercommands plugins (some channel)).map (·.tag)) := by
  unfold PluginManager.fire_command
  exact fireCommandLoop_sublist _ _ _ _

/-! ## Claim C7: part / kick purge the user only at zero memberships -/

/-- Closed form of userLeft on a tracked user and tracked channel. -/
theorem userLeft_eq (s : Session) (nick channel : String) (u : User) (c : Channel)
    (hu : dictGet s.users (pyLower (User.ofMask nick).nick) = some u)
    (hc : dictGet s.channels (pyLower channel) = some c) :
    ForkingDongles.userLeft s nick channel =
      (let s1 : Session :=
        { s with channels := dictSet s.channels (pyLower channel) (c.removeUser u.nick) }
       if (dictValues s1.channels).any (fun ch => decide (pyLower u.nick ∈ ch.users)) then
         .ok s1
       else .ok (ForkingDongles.removeUserU s1 u).1) := by
  unfold ForkingDongles.userLeft
  simp only [hu, hc]

/-- The two handler bodies are character-for-character identical. -/
theorem userKicked_eq_userLeft (s : Session) (nick channel kicker msg : String) :
    ForkingDongles.userKicked s nick channel kicker msg
      = ForkingDongles.userLeft s nick channel := rfl

/-- C7: when a tracked user leaves a tracked channel by part (its key
consistent with the stored nick) and the handler yields the new session,
then the kick handler yields the very same session, the channel lost the
user from membership and every privilege list, and the user is retained in
the registry exactly when some tracked channel still lists the lowercase
nick — otherwise it is purged. -/
theorem leftPurgesIffNoChannel (s : Session) (nick channel kicker msg : String)
    (u : User) (c : Channel) (s2 : Session)
    (hu : dictGet s.users (pyLower (User.ofMask nick).nick) = some u)
    (hkey : pyLower u.nick = pyLower (User.ofMask nick).nick)
    (hc : dictGet s.channels (pyLower channel) = some c)
    (hres : ForkingDongles.userLeft s nick channel = .ok s2) :
    ForkingDongles.userKicked s nick channel kicker msg = .ok s2 ∧
    dictGet s2.channels (pyLower channel) = some (c.removeUser u.nick) ∧
    ((∃ ch ∈ dictValues s2.channels, pyLower u.nick ∈ ch.users) →
        dictGet s2.users (pyLower u.nick) = some u) ∧
    ((∀ ch ∈ dictValues s2.channels, pyLower u.nick ∉ ch.users) →
        dictGet s2.users (pyLower u.nick) = none) := by
  have hkick : ForkingDongles.userKicked s nick channel kicker msg = .ok s2 := by
    rw [userKicked_eq_userLeft]
    exact hres
  rw [userLeft_eq s nick channel u c hu hc] at hres
  simp only [] at hres
  by_cases hA : (dictValues
      (dictSet s.channels (pyLower channel) (c.removeUser u.nick))).any
      (fun ch => decide (pyLower u.nick ∈ ch.users)) = true
  · rw [if_pos hA] at hres
    have hs2 :
        ({ s with
            channels := dictSet s.channels (pyLower channel) (c.removeUser u.nick) }
          : Session) = s2 :=
      Except.ok.inj hres
    refine ⟨hkick, ?_, ?_, ?_⟩
    · rw [← hs2]
      exact dictGet_dictSet_eq _ _ _
    · intro _
      rw [← hs2]
      show dictGet s.users (pyLower u.nick) = some u
      rw [hkey]
      exact hu
    · intro hall
      exfalso
      rw [List.any_eq_true] at hA
      obtain ⟨ch, hch, hin⟩ := hA
      rw [decide_eq_true_eq] at hin
      have hch2 : ch ∈ dictValues s2.channels := by
        rw [← hs2]
        exact hch
      exact hall ch hch2 hin
  · rw [if_neg hA] at hres
    have hget : dictGet s.users (pyLower u.nick) = some u := by
      rw [hkey]
      exact hu
    unfold ForkingDongles.removeUserU at hres
    simp only [hget] at hres
    have hs2 :
        ({ s with
            channels := dictSet s.channels (pyLower channel) (c.removeUser u.nick),
            users := dictDel s.users (pyLower u.nick) }
          : Session) = s2 :=
      Except.ok.inj hres
    refine ⟨hkick, ?_, ?_, ?_⟩
    · rw [← hs2]
      exact dictGet_dictSet_eq _ _ _
    · intro hex
      exfalso
      obtain ⟨ch, hch, hin⟩ := hex
      rw [← hs2] at hch
      have : (dictValues
          (dictSet s.channels (pyLower channel) (c.removeUser u.nick))).any
          (fun ch => decide (pyLower u.nick ∈ ch.users)) = true := by
        rw [List.any_eq_true]
        exact ⟨ch, hch, by simpa using hin⟩
      exact hA this
    · intro _
      rw [← hs2]
      exact dictGet_dictDel_eq _ _

/-- The tracked user of the C7 witness. -/
def c7alice : User := User.ofMask "alice"

/-- Channel #a, which alice is about to part. -/
def c7chA : Channel := (Channel.init "#a").addUser "alice"

/-- Channel #b, which still lists alice. -/
def c7chB : Channel := (Channel.init "#b").addUser "alice"

/-- Session tracking alice in #a and #b. -/
def c7s : Session :=
  { nickname := "dongle", users := [("alice", c7alice)],
    channels := [("#a", c7chA), ("#b", c7chB)] }

/-- The session after alice parts #a: gone from #a, still in #b. -/
def c7sAfter : Session :=
  { nickname := "dongle", users := [("alice", c7alice)],
    channels := [("#a", c7chA.removeUser "alice"), ("#b", c7chB)] }

/-- Witness for C7: alice parts #a while still in #b, so the kick handler
agrees with the part handler and alice is retained in the registry. -/
theorem leftPurgesIffNoChannel_witness :
    ForkingDongles.userKicked c7s "alice" "#a" "k" "bye" = .ok c7sAfter ∧
    dictGet c7sAfter.users (pyLower c7alice.nick) = some c7alice := by
  have h := leftPurgesIffNoChannel c7s "alice" "#a" "k" "bye" c7alice c7chA c7sAfter
    (by rfl) (by rfl) (by rfl) (by rfl)
  refine ⟨h.1, ?_⟩
  exact h.2.2.1 ⟨c7chB, by decide, by decide⟩
